import Mathlib

/-
Verification of the OAuth 2.1 auth subsystem (src/auth of the contex
repository): a shallow embedding of pkce.ts, oauth.ts, tokenManager.ts and
middleware.ts, together with theorems settling the specified properties.

JavaScript runtime values delivered by JSON parsing are modelled by the
inductive type JVal below; numbers are modelled as integers (every number
these claims exchange is an integer timestamp or an expires_in count).
Impure reads of Date.now() are modelled by threading the current time as an
explicit argument, and the HTTP fetch performed by refreshTokenRequest is
modelled by passing its outcome (transport failure or parsed JSON body) as
an explicit argument.
-/

set_option maxHeartbeats 1000000

namespace Contex

/-- JavaScript values as produced by response.json(). Numbers are modelled
as integers. A missing object property (JS undefined) is modelled by
Option.none at the use sites, never by a JVal constructor. -/
inductive JVal where
  | null : JVal
  | bool : Bool → JVal
  | num : Int → JVal
  | str : String → JVal
  | arr : List JVal → JVal
  | obj : List (String × JVal) → JVal

/-- Splits a character list at every occurrence of the separator, keeping
empty segments, exactly as String.prototype.split does with a
single-character separator (every separator the embedded code uses is a
single character). -/
def splitOnChar (sep : Char) : List Char → List (List Char)
  | [] => [[]]
  | c :: rest =>
    let r := splitOnChar sep rest
    if c = sep then [] :: r else (c :: r.headD []) :: r.tail

/-- String.prototype.split with a single-character separator. -/
def jsSplit (s : String) (sep : Char) : List String :=
  (splitOnChar sep s.toList).map String.mk

/-- Lower-cases an ASCII letter, the fragment of toLowerCase that the
authorization schemes in scope exercise. -/
def asciiLower (c : Char) : Char :=
  if 'A' ≤ c && c ≤ 'Z' then Char.ofNat (c.toNat + 32) else c

/-- String.prototype.toLowerCase on the ASCII fragment. -/
def jsToLowerCase (s : String) : String :=
  String.mk (s.toList.map asciiLower)

/-- JavaScript truthiness of a value (false, 0, the empty string and null
are falsy; arrays and objects are always truthy). -/
def jsTruthy : JVal → Bool
  | .null => false
  | .bool b => b
  | .num n => n != 0
  | .str s => s != ""
  | .arr _ => true
  | .obj _ => true

/-- Truthiness of a possibly-absent value (JS undefined is falsy). -/
def jsTruthyOpt : Option JVal → Bool
  | none => false
  | some v => jsTruthy v

/-- Property access v[k] on a JavaScript value: none models undefined
(absent key, or a non-object receiver). -/
def getField (v : JVal) (k : String) : Option JVal :=
  match v with
  | .obj fields => (fields.find? (fun p => p.1 == k)).map (fun p => p.2)
  | _ => none

/-- The JS expression (typeof v === "object"): true for null, arrays and
plain objects. -/
def jsIsObjectType : JVal → Bool
  | .null => true
  | .arr _ => true
  | .obj _ => true
  | _ => false

mutual

/-- JavaScript String() conversion. Arrays join their element strings with
commas (null elements become empty); objects stringify to the usual
"[object Object]". -/
def jsString : JVal → String
  | .null => "null"
  | .bool true => "true"
  | .bool false => "false"
  | .num n => toString n
  | .str s => s
  | .arr vs => jsStringList vs
  | .obj _ => "[object Object]"

/-- Comma-joined element strings of an array, as Array.prototype.toString
produces them. -/
def jsStringList : List JVal → String
  | [] => ""
  | [JVal.null] => ""
  | [v] => jsString v
  | JVal.null :: rest => "," ++ jsStringList rest
  | v :: rest => jsString v ++ "," ++ jsStringList rest

end

/-- JS ToNumber coercion restricted to the integer fragment of the model
(numeric strings parse; NaN-producing inputs are outside the model and the
theorems below never rely on this case). -/
def jsToInt : JVal → Int
  | .null => 0
  | .bool b => if b then 1 else 0
  | .num n => n
  | .str s => (s.toInt?).getD 0
  | .arr _ => 0
  | .obj _ => 0

/-- TokenSet from core/types.ts. parseTokenResponse guarantees accessToken
is a string; tokenType, refreshToken and scope keep the raw runtime value
that the TypeScript casts leave in place (none models JS undefined, so
some JVal.null models an explicit null). -/
structure TokenSet where
  accessToken : String
  tokenType : JVal
  expiresAt : Option Int
  refreshToken : Option JVal
  scope : Option JVal

/-- OAuthError from core/errors.ts (statusCode is never supplied by the
functions in scope and is omitted from the model). -/
structure OAuthError where
  message : JVal
  code : Option JVal

/-- Constructs an OAuthError as the oauthError factory does. -/
def oauthError (message : JVal) (code : Option JVal := none) : OAuthError :=
  ⟨message, code⟩

/-- TokenError from core/errors.ts; the second field is called tokenType in
the source and receives the storage key in getToken. -/
structure TokenError where
  message : JVal
  tokenType : Option String

/-- Constructs a TokenError as the tokenError factory does. -/
def tokenError (message : JVal) (tokenType : Option String := none) : TokenError :=
  ⟨message, tokenType⟩

/-- Result from core/result.ts with its Ok and Err variants. -/
inductive Result (α ε : Type) where
  | ok : α → Result α ε
  | err : ε → Result α ε

/-- parseTokenResponse from src/auth/oauth.ts. Date.now() is passed in as
now. The truthiness guard on data.access_token together with the typeof
check admit exactly the non-empty strings, which the match below mirrors. -/
def parseTokenResponse (now : Int) (response : JVal) : Result TokenSet OAuthError :=
  if !(jsTruthy response) || !(jsIsObjectType response) then
    .err (oauthError (.str "Invalid token response format"))
  else if jsTruthyOpt (getField response "error") then
    let e := (getField response "error").getD .null
    let message : JVal :=
      match getField response "error_description" with
      | none => .str (jsString e)
      | some .null => .str (jsString e)
      | some v => v
    .err (oauthError message (getField response "error"))
  else
    match getField response "access_token" with
    | some (.str s) =>
      if s == "" then
        .err (oauthError (.str "Missing access_token in response"))
      else
        .ok {
          accessToken := s,
          tokenType :=
            match getField response "token_type" with
            | none => .str "Bearer"
            | some .null => .str "Bearer"
            | some v => v,
          expiresAt :=
            if jsTruthyOpt (getField response "expires_in") then
              some (now + jsToInt ((getField response "expires_in").getD .null) * 1000)
            else none,
          refreshToken := getField response "refresh_token",
          scope := getField response "scope" }
    | _ => .err (oauthError (.str "Missing access_token in response"))

/-- isTokenExpired from src/auth/oauth.ts. The source guard (!token.expiresAt)
is falsy both for an absent expiresAt and for the number 0. -/
def isTokenExpired (now : Int) (token : TokenSet) (bufferMs : Int := 30000) : Bool :=
  match token.expiresAt with
  | none => false
  | some e => if e == 0 then false else decide (now ≥ e - bufferMs)

/-- canRefreshToken from src/auth/oauth.ts: the refresh token must be
neither undefined nor null. -/
def canRefreshToken (token : TokenSet) : Bool :=
  match token.refreshToken with
  | none => false
  | some .null => false
  | some _ => true

/-- getTokenScopes from src/auth/oauth.ts: the truthiness test on
token.scope is false for an absent scope and for the empty string. A
truthy non-string scope would make the .split call throw in JS; the
middleware theorems below therefore restrict scope to a string or absent. -/
def getTokenScopes (token : TokenSet) : List String :=
  match token.scope with
  | some (.str s) =>
    if s == "" then []
    else (jsSplit s ' ').filter (fun x => x.length > 0)
  | _ => []

/-- hasScope from src/auth/oauth.ts. -/
def hasScope (token : TokenSet) (scope : String) : Bool :=
  (getTokenScopes token).contains scope

/-- mergeTokens from src/auth/tokenManager.ts: the result is the new token
except that the nullish-coalescing on refreshToken falls back to the
existing refresh token when the new one is undefined or null. -/
def mergeTokens (existingToken newToken : TokenSet) : TokenSet :=
  { newToken with
    refreshToken :=
      match newToken.refreshToken with
      | none => existingToken.refreshToken
      | some .null => existingToken.refreshToken
      | some v => some v }

/-- The token storage capability, modelled as the key-to-token map it
implements (createMemoryStorage backs it with a Map). -/
def Storage := String → Option TokenSet

/-- getToken from src/auth/tokenManager.ts: a stored TokenSet object is
always truthy, so the guard fires exactly when the key is absent. -/
def getToken (storage : Storage) (key : String) : Result TokenSet TokenError :=
  match storage key with
  | none => .err (tokenError (.str "Token not found") (some key))
  | some t => .ok t

/-- setToken from src/auth/tokenManager.ts, as the storage update it
performs (the in-memory Map set never throws, so the tryCatchAsync wrapper
always succeeds). -/
def setToken (storage : Storage) (key : String) (token : TokenSet) : Storage :=
  fun k => if k == key then some token else storage k

/-- Outcome of the HTTP POST and response.json() inside refreshTokenRequest:
either a transport or JSON failure with its message, or the parsed body.
The request body built by buildRefreshTokenBody only flows into this call
and is abstracted by it. -/
inductive FetchOutcome where
  | failure : String → FetchOutcome
  | success : JVal → FetchOutcome

/-- refreshTokenRequest from src/auth/tokenManager.ts: a transport failure
becomes a TokenError, a parse failure is rewrapped as a TokenError carrying
the parse message, and a parsed TokenSet is returned as is. -/
def refreshTokenRequest (now : Int) (fetch : FetchOutcome) : Result TokenSet TokenError :=
  match fetch with
  | .failure e => .err (tokenError (.str e))
  | .success body =>
    match parseTokenResponse now body with
    | .err o => .err (tokenError o.message)
    | .ok ts => .ok ts

/-- Result of a getValidToken call: the returned Result, the storage after
the call, and how many refresh requests were issued. -/
structure GetValidTokenResult where
  result : Result TokenSet TokenError
  storage : Storage
  refreshCalls : Nat

/-- getValidToken from src/auth/tokenManager.ts. Note that the source
stores and returns the freshly parsed token from the refresh response
directly; it does not pass it through mergeTokens. -/
def getValidToken (now : Int) (fetch : FetchOutcome) (storage : Storage)
    (key : String) : GetValidTokenResult :=
  match getToken storage key with
  | .err e => ⟨.err e, storage, 0⟩
  | .ok token =>
    if !(isTokenExpired now token) then ⟨.ok token, storage, 0⟩
    else if !(canRefreshToken token) then
      ⟨.err (tokenError (.str "Token expired and no refresh token available")), storage, 0⟩
    else
      match refreshTokenRequest now fetch with
      | .err e => ⟨.err e, storage, 1⟩
      | .ok newToken => ⟨.ok newToken, setToken storage key newToken, 1⟩

/-- PkceParams from core/types.ts. The TypeScript type of
codeChallengeMethod is the string literal type S256, so every value of the
type carries that string; the model keeps the field as a String and the
theorems that depend on it state the literal as a hypothesis. -/
structure PkceParams where
  codeVerifier : String
  codeChallenge : String
  codeChallengeMethod : String

/-- AuthorizationState from src/auth/oauth.ts. -/
structure AuthorizationState where
  state : String
  pkce : PkceParams
  redirectUri : String
  createdAt : Int

/-- OAuthConfig from core/types.ts: clientSecret, pkce and redirectUri are
optional, and none models an absent (undefined) field. -/
structure OAuthConfig where
  clientId : String
  clientSecret : Option String
  authorizationUrl : String
  tokenUrl : String
  scopes : List String
  pkce : Option Bool
  redirectUri : Option String

/-- pkceToQueryParams from src/auth/pkce.ts. -/
def pkceToQueryParams (params : PkceParams) : List (String × String) :=
  [("code_challenge", params.codeChallenge),
   ("code_challenge_method", params.codeChallengeMethod)]

/-- pkceToTokenParams from src/auth/pkce.ts. -/
def pkceToTokenParams (verifier : String) : List (String × String) :=
  [("code_verifier", verifier)]

/-- Search parameters carried by a URL string, as new URL(s).searchParams
exposes them: the fragment is cut off first, the query is everything after
the first question mark, ampersands separate entries, the first equals sign
of an entry separates key from value, and empty entries are skipped.
Percent-decoding is not modelled; the parameters of these claims use plain
characters. -/
def urlQueryParams (s : String) : List (String × String) :=
  let beforeFrag := (jsSplit s '#').headD ""
  match jsSplit beforeFrag '?' with
  | [] => []
  | [_] => []
  | _ :: rest =>
    let query := String.intercalate "?" rest
    (jsSplit query '&').filterMap (fun piece =>
      if piece == "" then none
      else
        match jsSplit piece '=' with
        | [] => none
        | [k] => some (k, "")
        | k :: vs => some (k, String.intercalate "=" vs))

/-- URLSearchParams.set: replaces the first entry with the given key,
removes any further entries with that key, and appends when the key is
absent. -/
def setParam : List (String × String) → String → String → List (String × String)
  | [], k, v => [(k, v)]
  | (k0, v0) :: rest, k, v =>
    if k0 == k then (k, v) :: rest.filter (fun p => p.1 != k)
    else (k0, v0) :: setParam rest k v

/-- URLSearchParams.get: the value of the first entry with the given key. -/
def lookupParam (ps : List (String × String)) (k : String) : Option String :=
  (ps.find? (fun p => p.1 == k)).map (fun p => p.2)

/-- buildAuthorizationUrl from src/auth/oauth.ts, modelled as the search
parameter list of the produced URL (url.toString() serializes exactly these
entries in this order). The initial entries are those already carried by
config.authorizationUrl. -/
def buildAuthorizationUrl (config : OAuthConfig) (state : AuthorizationState) :
    List (String × String) :=
  let ps := urlQueryParams config.authorizationUrl
  let ps := setParam ps "response_type" "code"
  let ps := setParam ps "client_id" config.clientId
  let ps := setParam ps "redirect_uri" state.redirectUri
  let ps := setParam ps "state" state.state
  let ps :=
    if config.scopes.length > 0 then
      setParam ps "scope" (String.intercalate " " config.scopes)
    else ps
  if config.pkce != some false then
    (pkceToQueryParams state.pkce).foldl (fun acc kv => setParam acc kv.1 kv.2) ps
  else ps

/-- buildTokenRequestBody from src/auth/oauth.ts: a string record built in
insertion order; the clientSecret guard is a JS truthiness test, so an
empty secret is not included. -/
def buildTokenRequestBody (config : OAuthConfig) (code : String)
    (state : AuthorizationState) : List (String × String) :=
  let body := [("grant_type", "authorization_code"), ("code", code),
               ("redirect_uri", state.redirectUri), ("client_id", config.clientId)]
  let body :=
    match config.clientSecret with
    | some s => if s != "" then body ++ [("client_secret", s)] else body
    | none => body
  if config.pkce != some false then body ++ pkceToTokenParams state.pkce.codeVerifier
  else body

/-- WHATWG URL parse success, modelled from the spec: validateOAuthConfig
wraps new URL(...) in a try/catch, and on the http(s) URLs this subsystem
configures, parsing succeeds exactly when a scheme prefix is present. -/
def urlCanParse (s : String) : Bool :=
  ("http://".toList.isPrefixOf s.toList) || ("https://".toList.isPrefixOf s.toList)

/-- validateOAuthConfig from src/auth/oauth.ts. -/
def validateOAuthConfig (config : OAuthConfig) : Result OAuthConfig OAuthError :=
  if config.clientId == "" then
    .err (oauthError (.str "Missing clientId in OAuth configuration"))
  else if config.authorizationUrl == "" then
    .err (oauthError (.str "Missing authorizationUrl in OAuth configuration"))
  else if config.tokenUrl == "" then
    .err (oauthError (.str "Missing tokenUrl in OAuth configuration"))
  else if !(urlCanParse config.authorizationUrl) || !(urlCanParse config.tokenUrl) then
    .err (oauthError (.str "Invalid URL in OAuth configuration"))
  else .ok config

/-- The part of an Express request the auth middleware reads:
req.headers.authorization and req.query.access_token (the latter kept as a
raw value, since Express may deliver arrays or nested objects there). -/
structure Request where
  authorization : Option String
  queryAccessToken : Option JVal

/-- Truthiness of a possibly-absent string (undefined and the empty string
are falsy). -/
def jsTruthyStrOpt : Option String → Bool
  | none => false
  | some s => s != ""

/-- extractBearerToken from src/auth/middleware.ts: an absent or empty
header is falsy; the header must split on single spaces into exactly two
parts whose first part lower-cases to the bearer scheme. -/
def extractBearerToken (authHeader : Option String) : Option String :=
  match authHeader with
  | none => none
  | some h =>
    if h == "" then none
    else
      let parts := jsSplit h ' '
      if parts.length != 2 then none
      else if jsToLowerCase (parts.headD "") != "bearer" then none
      else some (parts.getD 1 "")

/-- extractToken from src/auth/middleware.ts: the header token is used only
when truthy (a non-empty string); otherwise the access_token query value is
returned when it is a string. -/
def extractToken (req : Request) : Option String :=
  let headerToken := extractBearerToken req.authorization
  if jsTruthyStrOpt headerToken then headerToken
  else
    match req.queryAccessToken with
    | some (.str s) => some s
    | _ => none

/-- What a middleware invocation does with the request: respond with a
status and a JSON error body, or call next() with the given token attached
to the request (none when the request token field is left untouched). -/
inductive MiddlewareOutcome where
  | responded : Int → JVal → JVal → MiddlewareOutcome
  | proceeded : Option TokenSet → MiddlewareOutcome

/-- createAuthMiddleware from src/auth/middleware.ts. The validator is the
pluggable TokenValidator; its asynchrony is irrelevant to the decision
taken and it is modelled as a function into Result. -/
def createAuthMiddleware (validator : String → Result TokenSet OAuthError)
    (req : Request) : MiddlewareOutcome :=
  let token := extractToken req
  if !(jsTruthyStrOpt token) then
    .responded 401 (.str "unauthorized") (.str "Missing authentication token")
  else
    match validator (token.getD "") with
    | .err e => .responded 401 (.str "invalid_token") e.message
    | .ok ts => .proceeded (some ts)

/-- requireScopes from src/auth/middleware.ts, as a function of the token
the preceding middleware attached to the request (none when nothing was
attached). -/
def requireScopes (requiredScopes : List String) (reqToken : Option TokenSet) :
    MiddlewareOutcome :=
  match reqToken with
  | none => .responded 401 (.str "unauthorized") (.str "Authentication required")
  | some token =>
    let missingScopes := requiredScopes.filter (fun scope => !(hasScope token scope))
    if missingScopes.length > 0 then
      .responded 403 (.str "insufficient_scope")
        (.str ("Missing required scopes: " ++ String.intercalate ", " missingScopes))
    else .proceeded (some token)

/-- UTF-8 encoding of a character, as the Node hash.update(verifier) call
encodes its string argument. -/
def charUtf8 (c : Char) : List Nat :=
  let n := c.toNat
  if n < 128 then [n]
  else if n < 2048 then [192 + n / 64, 128 + n % 64]
  else if n < 65536 then [224 + n / 4096, 128 + n / 64 % 64, 128 + n % 64]
  else [240 + n / 262144, 128 + n / 4096 % 64, 128 + n / 64 % 64, 128 + n % 64]

/-- UTF-8 byte sequence of a string. -/
def utf8Bytes (s : String) : List Nat :=
  (s.toList.map charUtf8).flatten

/-- Truncation to a 32-bit word. -/
def w32 (n : Nat) : Nat := n % 4294967296

/-- Rotates a word of thirty-two bits right by n positions, expressed with
division and remainder on Nat. -/
def rotr (n x : Nat) : Nat := x / 2 ^ n + (x % 2 ^ n) * 2 ^ (32 - n)

/-- The eight-word working state of SHA-256. -/
structure Sha256State where
  a : Nat
  b : Nat
  c : Nat
  d : Nat
  e : Nat
  f : Nat
  g : Nat
  h : Nat

/-- Modelled from the spec: SHA-256 (FIPS 180-4) as computed by the Node
crypto createHash call in src/auth/pkce.ts, which is not part of this
repository. Initial hash state. -/
def sha256Init : Sha256State :=
  ⟨1779033703, 3144134277, 1013904242, 2773480762,
   1359893119, 2600822924, 528734635, 1541459225⟩

/-- The sixty-four SHA-256 round constants. -/
def sha256K : List Nat :=
  [1116352408, 1899447441, 3049323471, 3921009573, 961987163,
   1508970993, 2453635748, 2870763221, 3624381080, 310598401,
   607225278, 1426881987, 1925078388, 2162078206, 2614888103,
   3248222580, 3835390401, 4022224774, 264347078, 604807628,
   770255983, 1249150122, 1555081692, 1996064986, 2554220882,
   2821834349, 2952996808, 3210313671, 3336571891, 3584528711,
   113926993, 338241895, 666307205, 773529912, 1294757372,
   1396182291, 1695183700, 1986661051, 2177026350, 2456956037,
   2730485921, 2820302411, 3259730800, 3345764771, 3516065817,
   3600352804, 4094571909, 275423344, 430227734, 506948616,
   659060556, 883997877, 958139571, 1322822218, 1537002063,
   1747873779, 1955562222, 2024104815, 2227730452, 2361852424,
   2428436474, 2756734187, 3204031479, 3329325298]

/-- Big-endian byte expansion of a number into the given count of bytes. -/
def natToBytesBE : Nat → Nat → List Nat
  | 0, _ => []
  | k + 1, n => natToBytesBE k (n / 256) ++ [n % 256]

/-- SHA-256 message padding: a single one bit, zeros up to fifty-six bytes
modulo sixty-four, then the bit length as an eight-byte big-endian count. -/
def sha256Pad (msg : List Nat) : List Nat :=
  let len := msg.length
  let padLen := (64 - ((len + 9) % 64)) % 64
  msg ++ [128] ++ List.replicate padLen 0 ++ natToBytesBE 8 (len * 8)

/-- Big-endian grouping of bytes into 32-bit words (the padded message
length is always a multiple of four bytes). -/
def bytesToWords : List Nat → List Nat
  | b0 :: b1 :: b2 :: b3 :: rest =>
    (((b0 * 256 + b1) * 256 + b2) * 256 + b3) :: bytesToWords rest
  | _ => []

/-- Grouping of the word stream into sixteen-word blocks (the padded
message is always a whole number of blocks). -/
def wordChunks : List Nat → List (List Nat)
  | w0 :: w1 :: w2 :: w3 :: w4 :: w5 :: w6 :: w7 ::
    w8 :: w9 :: w10 :: w11 :: w12 :: w13 :: w14 :: w15 :: rest =>
    [w0, w1, w2, w3, w4, w5, w6, w7, w8, w9, w10, w11, w12, w13, w14, w15]
      :: wordChunks rest
  | _ => []

/-- One message-schedule extension step appended at the current end of the
schedule. -/
def schedStep (w : List Nat) : List Nat :=
  let n := w.length
  let s0v :=
    rotr 7 (w.getD (n - 15) 0) ^^^ rotr 18 (w.getD (n - 15) 0) ^^^ (w.getD (n - 15) 0) / 8
  let s1v :=
    rotr 17 (w.getD (n - 2) 0) ^^^ rotr 19 (w.getD (n - 2) 0) ^^^ (w.getD (n - 2) 0) / 1024
  w ++ [w32 (w.getD (n - 16) 0 + s0v + w.getD (n - 7) 0 + s1v)]

/-- Iterated schedule extension (forty-eight steps take the sixteen block
words to the full sixty-four word schedule). -/
def extendW : Nat → List Nat → List Nat
  | 0, w => w
  | k + 1, w => extendW k (schedStep w)

/-- One SHA-256 compression round; kw is the sum of the round constant and
the schedule word. -/
def sha256Round (st : Sha256State) (kw : Nat) : Sha256State :=
  let bigS1 := rotr 6 st.e ^^^ rotr 11 st.e ^^^ rotr 25 st.e
  let ch := (st.e &&& st.f) ^^^ ((st.e ^^^ 4294967295) &&& st.g)
  let temp1 := w32 (st.h + bigS1 + ch + kw)
  let bigS0 := rotr 2 st.a ^^^ rotr 13 st.a ^^^ rotr 22 st.a
  let maj := (st.a &&& st.b) ^^^ (st.a &&& st.c) ^^^ (st.b &&& st.c)
  let temp2 := w32 (bigS0 + maj)
  ⟨w32 (temp1 + temp2), st.a, st.b, st.c, w32 (st.d + temp1), st.e, st.f, st.g⟩

/-- Sixty-four compression rounds over one block schedule. -/
def compressChunk (st : Sha256State) (w : List Nat) : Sha256State :=
  (List.zip sha256K w).foldl (fun s kw => sha256Round s (kw.1 + kw.2)) st

/-- Word-wise modular addition of two hash states. -/
def addState (x y : Sha256State) : Sha256State :=
  ⟨w32 (x.a + y.a), w32 (x.b + y.b), w32 (x.c + y.c), w32 (x.d + y.d),
   w32 (x.e + y.e), w32 (x.f + y.f), w32 (x.g + y.g), w32 (x.h + y.h)⟩

/-- Big-endian bytes of one 32-bit word. -/
def wordBytes (w : Nat) : List Nat :=
  [w / 16777216 % 256, w / 65536 % 256, w / 256 % 256, w % 256]

/-- The thirty-two digest bytes of a final hash state. -/
def digestBytes (st : Sha256State) : List Nat :=
  wordBytes st.a ++ wordBytes st.b ++ wordBytes st.c ++ wordBytes st.d ++
  wordBytes st.e ++ wordBytes st.f ++ wordBytes st.g ++ wordBytes st.h

/-- Modelled from the spec: the SHA-256 digest of a byte sequence, standing
in for the Node crypto createHash call that src/auth/pkce.ts makes. -/
def sha256 (msg : List Nat) : List Nat :=
  let chunks := wordChunks (bytesToWords (sha256Pad msg))
  digestBytes (chunks.foldl
    (fun st chunk => addState st (compressChunk st (extendW 48 chunk))) sha256Init)

/-- The base64 alphabet in index order. -/
def base64Chars : List Char :=
  "ABCDEFGHIJKLMNOPQRSTUVWXYZabcdefghijklmnopqrstuvwxyz0123456789+/".toList

/-- The base64 character of a six-bit group. -/
def base64Char (n : Nat) : Char := base64Chars.getD n 'A'

/-- Modelled from the spec: standard base64 with padding, standing in for
the Node Buffer.toString base64 conversion used by base64UrlEncode. -/
def base64Encode : List Nat → List Char
  | [] => []
  | [a] => [base64Char (a / 4), base64Char (a % 4 * 16), '=', '=']
  | [a, b] =>
    [base64Char (a / 4), base64Char (a % 4 * 16 + b / 16), base64Char (b % 16 * 4), '=']
  | a :: b :: c :: rest =>
    base64Char (a / 4) :: base64Char (a % 4 * 16 + b / 16) ::
    base64Char (b % 16 * 4 + c / 64) :: base64Char (c % 64) :: base64Encode rest

/-- The per-character action of the first replace call in base64UrlEncode:
plus becomes minus. -/
def plusfix (c : Char) : Char := if c = '+' then '-' else c

/-- The per-character action of the second replace call in base64UrlEncode:
slash becomes underscore. -/
def slashfix (c : Char) : Char := if c = '/' then '_' else c

/-- base64UrlEncode from src/auth/pkce.ts: base64, then the three global
replacements turning plus into minus, slash into underscore, and removing
the padding equals signs. -/
def base64UrlEncode (bytes : List Nat) : String :=
  String.mk ((((base64Encode bytes).map plusfix).map slashfix).filter (fun c => c != '='))

/-- computeCodeChallenge from src/auth/pkce.ts: the base64url encoding of
the SHA-256 digest of the verifier. -/
def computeCodeChallenge (verifier : String) : String :=
  base64UrlEncode (sha256 (utf8Bytes verifier))

/-
Theorems settling the claims.
-/

/-- C1: evaluation of getValidToken at the failing input. The stored token
under u1 is expired and carries refresh token r1; the refresh response
omits refresh_token. The source persists and returns the freshly parsed
token as is — its refreshToken is gone — whereas mergeTokens of the old and
new token, which the claim (and the documented purpose of mergeTokens)
requires to be persisted, would have preserved r1. -/
theorem C1_getValidToken_drops_refresh_token :
    (getValidToken 1000000
      (.success (.obj [("access_token", .str "xyz"), ("expires_in", .num 3600)]))
      (fun k => if k == "u1" then
        some ⟨"abc", .str "Bearer", some 1000, some (.str "r1"), none⟩ else none)
      "u1").result = .ok ⟨"xyz", .str "Bearer", some 4600000, none, none⟩ ∧
    (getValidToken 1000000
      (.success (.obj [("access_token", .str "xyz"), ("expires_in", .num 3600)]))
      (fun k => if k == "u1" then
        some ⟨"abc", .str "Bearer", some 1000, some (.str "r1"), none⟩ else none)
      "u1").storage "u1" = some ⟨"xyz", .str "Bearer", some 4600000, none, none⟩ ∧
    (mergeTokens ⟨"abc", .str "Bearer", some 1000, some (.str "r1"), none⟩
      ⟨"xyz", .str "Bearer", some 4600000, none, none⟩).refreshToken = some (.str "r1") :=
  ⟨rfl, rfl, rfl⟩

/-- C2: getValidToken returns an unexpired stored token unchanged, with no
refresh call and no storage write; when the stored token is expired and has
no usable refresh token it fails with the expired-no-refresh message,
again with no refresh call and no write; and when nothing is stored under
the key it fails with Token not found. -/
theorem C2_getValidToken_no_refresh_paths (now : Int) (fetch : FetchOutcome)
    (st : Storage) (key : String) :
    (st key = none →
      getValidToken now fetch st key =
        ⟨.err (tokenError (.str "Token not found") (some key)), st, 0⟩) ∧
    (∀ t, st key = some t → isTokenExpired now t = false →
      getValidToken now fetch st key = ⟨.ok t, st, 0⟩) ∧
    (∀ t, st key = some t → isTokenExpired now t = true → canRefreshToken t = false →
      getValidToken now fetch st key =
        ⟨.err (tokenError (.str "Token expired and no refresh token available")), st, 0⟩) := by
  refine ⟨fun h => ?_, fun t h hexp => ?_, fun t h hexp href => ?_⟩ <;>
    simp [getValidToken, getToken, *]

/-- C2 witness: the three paths evaluated on concrete stores. -/
theorem C2_getValidToken_no_refresh_paths_witness :
    getValidToken 1000000 (.failure "down")
      (fun k => if k == "u1" then
        some ⟨"abc", .str "Bearer", some 1000, none, none⟩ else none) "u1" =
    ⟨.err (tokenError (.str "Token expired and no refresh token available")),
      (fun k => if k == "u1" then
        some ⟨"abc", .str "Bearer", some 1000, none, none⟩ else none), 0⟩ :=
  (C2_getValidToken_no_refresh_paths 1000000 (.failure "down")
    (fun k => if k == "u1" then
      some ⟨"abc", .str "Bearer", some 1000, none, none⟩ else none) "u1").2.2
    ⟨"abc", .str "Bearer", some 1000, none, none⟩ rfl rfl rfl

/-- C4 counterexample: the claim fails at a token whose expiresAt is
exactly 0. At now = 1000000 with the default 30000 buffer the claimed rule
(now at least expiresAt minus buffer) says expired, but isTokenExpired
returns false, because the JS truthiness guard treats the number 0 like an
absent expiresAt. -/
theorem C4_expiry_counterexample :
    isTokenExpired 1000000 ⟨"a", .str "Bearer", some 0, none, none⟩ = false ∧
    ((1000000 : Int) ≥ 0 - 30000) :=
  ⟨rfl, by decide⟩

/-- C4 (amended): a token with no expiresAt, or with an expiresAt equal to
0 (which the truthiness guard treats as absent), is never considered
expired; a token with a nonzero expiresAt is considered expired exactly
when now is at least expiresAt minus bufferMs; and bufferMs defaults to
30000 milliseconds. -/
theorem C4_expiry_rule (now bufferMs : Int) (t : TokenSet) :
    (t.expiresAt = none → isTokenExpired now t bufferMs = false) ∧
    (t.expiresAt = some 0 → isTokenExpired now t bufferMs = false) ∧
    (∀ e : Int, t.expiresAt = some e → e ≠ 0 →
      (isTokenExpired now t bufferMs = true ↔ now ≥ e - bufferMs)) ∧
    isTokenExpired now t = isTokenExpired now t 30000 := by
  refine ⟨fun h => ?_, fun h => ?_, fun e he hne => ?_, rfl⟩ <;>
    simp [isTokenExpired, *]

/-- C4 witness: the amended rule evaluated at a concrete expired token. -/
theorem C4_expiry_rule_witness :
    isTokenExpired 100000 ⟨"a", .str "Bearer", some 50000, none, none⟩ 30000 = true :=
  ((C4_expiry_rule 100000 30000 ⟨"a", .str "Bearer", some 50000, none, none⟩).2.2.1
    50000 rfl (by decide)).mpr (by decide)

/-- C9: whenever getValidToken returns an error, the storage it returns is
pointwise the storage it was given — in particular the token under the
queried key is untouched; a write happens only on the successful refresh
path. -/
theorem C9_storage_unchanged_on_error (now : Int) (fetch : FetchOutcome)
    (st : Storage) (key : String) (e : TokenError)
    (h : (getValidToken now fetch st key).result = .err e) :
    ∀ k, (getValidToken now fetch st key).storage k = st k := by
  intro k
  unfold getValidToken at h ⊢
  cases hg : getToken st key with
  | err e0 => simp [hg]
  | ok token =>
    simp only [hg] at h ⊢
    cases hexp : isTokenExpired now token with
    | false => simp [hexp]
    | true =>
      simp only [hexp] at h ⊢
      cases href : canRefreshToken token with
      | false => simp [href]
      | true =>
        simp only [href] at h ⊢
        cases hr : refreshTokenRequest now fetch with
        | err e1 => simp [hr]
        | ok nt => simp [hr] at h ⊢

/-- C9 witness: an error path (expired token, failing refresh transport)
leaves the store entry for the queried key unchanged. -/
theorem C9_storage_unchanged_on_error_witness :
    (getValidToken 1000000 (.failure "down")
      (fun k => if k == "u1" then
        some ⟨"abc", .str "Bearer", some 1000, some (.str "r1"), none⟩ else none)
      "u1").storage "u1" =
    (fun k => if k == "u1" then
      some ⟨"abc", .str "Bearer", some 1000, some (.str "r1"), none⟩ else none) "u1" :=
  C9_storage_unchanged_on_error 1000000 (.failure "down")
    (fun k => if k == "u1" then
      some ⟨"abc", .str "Bearer", some 1000, some (.str "r1"), none⟩ else none)
    "u1" (tokenError (.str "down")) rfl "u1"

/-- Looking a key up in the empty parameter list gives nothing. -/
theorem lookupParam_nil (k : String) : lookupParam [] k = none := rfl

/-- Parameter lookup steps through a cons cell by comparing its key. -/
theorem lookupParam_cons (k0 v0 : String) (rest : List (String × String)) (k : String) :
    lookupParam ((k0, v0) :: rest) k = if k0 = k then some v0 else lookupParam rest k := by
  by_cases h : k0 = k <;> simp [lookupParam, List.find?_cons, h]

/-- C10: the bearer scheme is matched case-insensitively and the token is
the second of exactly two space-separated parts (concretely, bearer x and
BEARER x both yield x); any header that does not split into exactly two
parts yields nothing (concretely Bearer alone and Bearer a b); and for the
headers Bearer, Bearer a b and the empty-token header Bearer followed by a
space, extractToken behaves exactly as if no Authorization header were
present, falling through to the access_token query parameter. -/
theorem C10_extractBearerToken_and_fallthrough (h : String) (q : Option JVal) :
    (extractBearerToken (some "bearer x") = some "x" ∧
     extractBearerToken (some "BEARER x") = some "x") ∧
    ((jsSplit h ' ').length ≠ 2 → extractBearerToken (some h) = none) ∧
    (∀ w t, jsSplit h ' ' = [w, t] → jsToLowerCase w = "bearer" →
      extractBearerToken (some h) = some t) ∧
    (extractToken ⟨some "Bearer", q⟩ = extractToken ⟨none, q⟩ ∧
     extractToken ⟨some "Bearer a b", q⟩ = extractToken ⟨none, q⟩ ∧
     extractToken ⟨some "Bearer ", q⟩ = extractToken ⟨none, q⟩) := by
  refine ⟨⟨rfl, rfl⟩, fun hlen => ?_, fun w t hsplit hlow => ?_, rfl, rfl, rfl⟩
  · by_cases hh : h = ""
    · simp [extractBearerToken, hh]
    · simp [extractBearerToken, hh, hlen]
  · by_cases hh : h = ""
    · rw [hh] at hsplit
      simp [jsSplit, splitOnChar] at hsplit
    · simp [extractBearerToken, hh, hsplit, hlow]

/-- C10 witness: the two-part rule applied to an upper-case scheme header. -/
theorem C10_extractBearerToken_and_fallthrough_witness :
    extractBearerToken (some "BEARER tok") = some "tok" :=
  (C10_extractBearerToken_and_fallthrough "BEARER tok" none).2.2.1 "BEARER" "tok" rfl rfl

/-- C7: buildTokenRequestBody carries the authorization_code grant type,
the given code, the redirect URI of the given state, and the configured
client id; client_secret appears exactly when a non-empty secret is
configured (the source guard is a JS truthiness test); and code_verifier
appears exactly when PKCE is not disabled, taken from the pkce pair of the
given AuthorizationState. -/
theorem C7_buildTokenRequestBody (cfg : OAuthConfig) (code : String)
    (st : AuthorizationState) :
    lookupParam (buildTokenRequestBody cfg code st) "grant_type" = some "authorization_code" ∧
    lookupParam (buildTokenRequestBody cfg code st) "code" = some code ∧
    lookupParam (buildTokenRequestBody cfg code st) "redirect_uri" = some st.redirectUri ∧
    lookupParam (buildTokenRequestBody cfg code st) "client_id" = some cfg.clientId ∧
    (∀ s, cfg.clientSecret = some s → s ≠ "" →
      lookupParam (buildTokenRequestBody cfg code st) "client_secret" = some s) ∧
    ((cfg.clientSecret = none ∨ cfg.clientSecret = some "") →
      lookupParam (buildTokenRequestBody cfg code st) "client_secret" = none) ∧
    (cfg.pkce ≠ some false →
      lookupParam (buildTokenRequestBody cfg code st) "code_verifier" =
        some st.pkce.codeVerifier) ∧
    (cfg.pkce = some false →
      lookupParam (buildTokenRequestBody cfg code st) "code_verifier" = none) := by
  refine ⟨?_, ?_, ?_, ?_, fun s hcs hs => ?_, fun hcs0 => ?_, fun hp => ?_, fun hp => ?_⟩
  case _ | _ | _ | _ =>
    rcases hcs : cfg.clientSecret with _ | s2
    · by_cases hp2 : cfg.pkce = some false <;>
        simp [buildTokenRequestBody, hcs, hp2, lookupParam_cons, lookupParam_nil,
          pkceToTokenParams]
    · by_cases hp2 : cfg.pkce = some false <;> by_cases hs2 : s2 = "" <;>
        simp [buildTokenRequestBody, hcs, hp2, hs2, lookupParam_cons, lookupParam_nil,
          pkceToTokenParams]
  · by_cases hp2 : cfg.pkce = some false <;>
      simp [buildTokenRequestBody, hcs, hp2, hs, lookupParam_cons, lookupParam_nil,
        pkceToTokenParams]
  · rcases hcs0 with hcs | hcs <;> by_cases hp2 : cfg.pkce = some false <;>
      simp [buildTokenRequestBody, hcs, hp2, lookupParam_cons, lookupParam_nil,
        pkceToTokenParams]
  · rcases hcs : cfg.clientSecret with _ | s2
    · simp [buildTokenRequestBody, hcs, hp, lookupParam_cons, lookupParam_nil,
        pkceToTokenParams]
    · by_cases hs2 : s2 = "" <;>
        simp [buildTokenRequestBody, hcs, hp, hs2, lookupParam_cons, lookupParam_nil,
          pkceToTokenParams]
  · rcases hcs : cfg.clientSecret with _ | s2
    · simp [buildTokenRequestBody, hcs, hp, lookupParam_cons, lookupParam_nil,
        pkceToTokenParams]
    · by_cases hs2 : s2 = "" <;>
        simp [buildTokenRequestBody, hcs, hp, hs2, lookupParam_cons, lookupParam_nil,
          pkceToTokenParams]

/-- C7 witness: the body built for a secretless PKCE configuration. -/
theorem C7_buildTokenRequestBody_witness :
    lookupParam (buildTokenRequestBody
      ⟨"c1", none, "https://auth/authorize", "https://auth/token", ["read"], none, none⟩
      "thecode" ⟨"st", ⟨"ver", "ch", "S256"⟩, "https://app/cb", 0⟩) "code_verifier" =
      some "ver" :=
  (C7_buildTokenRequestBody
    ⟨"c1", none, "https://auth/authorize", "https://auth/token", ["read"], none, none⟩
    "thecode" ⟨"st", ⟨"ver", "ch", "S256"⟩, "https://app/cb", 0⟩).2.2.2.2.2.2.1
    (by decide)

/-- C5: with no extractable token the auth middleware responds 401
unauthorized; an extracted (non-empty) token the validator rejects gets
401 invalid_token carrying the validator message; an accepted token is
attached and the chain proceeds; requireScopes responds 401 with no
attached token, responds 403 insufficient_scope naming exactly the
required scopes missing from the scope list of the attached token when
any are missing, and proceeds when none are. The scope field is
constrained to a string or absent, the only shapes on which the JS scope
split is defined. -/
theorem C5_middleware_boundary (validator : String → Result TokenSet OAuthError)
    (req : Request) (scopes : List String) :
    (extractToken req = none →
      createAuthMiddleware validator req =
        .responded 401 (.str "unauthorized") (.str "Missing authentication token")) ∧
    (∀ t, extractToken req = some t → t ≠ "" → ∀ e, validator t = .err e →
      createAuthMiddleware validator req =
        .responded 401 (.str "invalid_token") e.message) ∧
    (∀ t ts, extractToken req = some t → t ≠ "" → validator t = .ok ts →
      createAuthMiddleware validator req = .proceeded (some ts)) ∧
    (requireScopes scopes none =
      .responded 401 (.str "unauthorized") (.str "Authentication required")) ∧
    (∀ ts, (ts.scope = none ∨ ∃ s, ts.scope = some (.str s)) →
      (scopes.filter (fun sc => !(hasScope ts sc)) ≠ [] →
        requireScopes scopes (some ts) =
          .responded 403 (.str "insufficient_scope")
            (.str ("Missing required scopes: " ++
              String.intercalate ", " (scopes.filter (fun sc => !(hasScope ts sc)))))) ∧
      ((scopes.filter (fun sc => !(hasScope ts sc))) = [] →
        requireScopes scopes (some ts) = .proceeded (some ts))) := by
  refine ⟨fun h => ?_, fun t ht hne e hv => ?_, fun t ts ht hne hv => ?_, rfl,
    fun ts _ => ⟨fun hne => ?_, fun heq => ?_⟩⟩
  · simp [createAuthMiddleware, h, jsTruthyStrOpt]
  · simp [createAuthMiddleware, ht, jsTruthyStrOpt, hne, hv]
  · simp [createAuthMiddleware, ht, jsTruthyStrOpt, hne, hv]
  · have hlen : 0 < (scopes.filter (fun sc => !(hasScope ts sc))).length :=
      List.length_pos.mpr hne
    simp [requireScopes, hlen]
  · simp [requireScopes, heq]

/-- C5 witness: a token whose scope is read, checked against required
scopes read and write, is rejected with a 403 naming write. -/
theorem C5_middleware_boundary_witness :
    requireScopes ["read", "write"]
      (some ⟨"tok", .str "Bearer", none, none, some (.str "read")⟩) =
      .responded 403 (.str "insufficient_scope")
        (.str ("Missing required scopes: " ++ String.intercalate ", "
          (["read", "write"].filter (fun sc =>
            !(hasScope ⟨"tok", .str "Bearer", none, none, some (.str "read")⟩ sc))))) :=
  ((C5_middleware_boundary (fun _ => .err (oauthError (.str "x")))
    ⟨none, none⟩ ["read", "write"]).2.2.2.2
    ⟨"tok", .str "Bearer", none, none, some (.str "read")⟩
    (Or.inr ⟨"read", rfl⟩)).1 (by decide)

/-- Removing the entries of one key does not affect lookups of another. -/
theorem lookupParam_filter_ne (rest : List (String × String)) (k k2 : String)
    (hne : k2 ≠ k) :
    lookupParam (rest.filter (fun p => p.1 != k)) k2 = lookupParam rest k2 := by
  induction rest with
  | nil => rfl
  | cons p rest ih =>
    obtain ⟨k1, v1⟩ := p
    by_cases h1 : k1 = k
    · have hne2 : k1 ≠ k2 := by rw [h1]; exact Ne.symm hne
      simp [List.filter_cons, h1, lookupParam_cons, hne2, Ne.symm hne, ih]
    · simp [List.filter_cons, h1, lookupParam_cons, ih]

/-- After setting a key, looking that key up yields the new value. -/
theorem lookupParam_setParam_self (ps : List (String × String)) (k v : String) :
    lookupParam (setParam ps k v) k = some v := by
  induction ps with
  | nil => simp [setParam, lookupParam_cons]
  | cons p rest ih =>
    obtain ⟨k0, v0⟩ := p
    by_cases h : k0 = k <;> simp [setParam, h, lookupParam_cons, ih]

/-- Setting one key leaves lookups of any other key unchanged. -/
theorem lookupParam_setParam_ne (ps : List (String × String)) (k v k2 : String)
    (hne : k2 ≠ k) :
    lookupParam (setParam ps k v) k2 = lookupParam ps k2 := by
  induction ps with
  | nil => simp [setParam, lookupParam_cons, lookupParam_nil, Ne.symm hne]
  | cons p rest ih =>
    obtain ⟨k0, v0⟩ := p
    by_cases h : k0 = k
    · have hne2 : k0 ≠ k2 := by rw [h]; exact Ne.symm hne
      simp [setParam, h, lookupParam_cons, Ne.symm hne, hne2,
        lookupParam_filter_ne rest k k2 hne]
    · simp [setParam, h, lookupParam_cons, ih]

/-- C6 counterexample: the claim quantifies over every valid OAuthConfig,
but when the configured authorizationUrl itself already carries a scope
query parameter, the produced URL contains a scope parameter even though
scopes is empty, because URLSearchParams.set never removes parameters the
base URL brought along. -/
theorem C6_buildAuthorizationUrl_counterexample :
    validateOAuthConfig
      ⟨"c1", none, "https://auth/authorize?scope=x", "https://auth/token", [], none, none⟩ =
      .ok ⟨"c1", none, "https://auth/authorize?scope=x", "https://auth/token", [], none, none⟩ ∧
    (⟨"c1", none, "https://auth/authorize?scope=x", "https://auth/token", [], none, none⟩ :
      OAuthConfig).scopes = [] ∧
    lookupParam (buildAuthorizationUrl
      ⟨"c1", none, "https://auth/authorize?scope=x", "https://auth/token", [], none, none⟩
      ⟨"st", ⟨"v", "ch", "S256"⟩, "https://app/cb", 0⟩) "scope" = some "x" :=
  ⟨rfl, rfl, rfl⟩

/-- C6 (amended): provided the configured authorizationUrl carries no
scope, code_challenge or code_challenge_method query parameters of its own,
the produced URL always carries response_type=code, the configured
client_id, the redirect URI and state token of the given state; a scope
parameter (the scopes space-joined) exactly when scopes is non-empty; and
code_challenge with code_challenge_method=S256 exactly when pkce is not
false. The S256 hypothesis restates the literal type of
codeChallengeMethod in the TypeScript source. -/
theorem C6_buildAuthorizationUrl_params (cfg : OAuthConfig) (st : AuthorizationState)
    (hmethod : st.pkce.codeChallengeMethod = "S256")
    (hscope : lookupParam (urlQueryParams cfg.authorizationUrl) "scope" = none)
    (hch : lookupParam (urlQueryParams cfg.authorizationUrl) "code_challenge" = none)
    (hchm : lookupParam (urlQueryParams cfg.authorizationUrl) "code_challenge_method" = none) :
    lookupParam (buildAuthorizationUrl cfg st) "response_type" = some "code" ∧
    lookupParam (buildAuthorizationUrl cfg st) "client_id" = some cfg.clientId ∧
    lookupParam (buildAuthorizationUrl cfg st) "redirect_uri" = some st.redirectUri ∧
    lookupParam (buildAuthorizationUrl cfg st) "state" = some st.state ∧
    (cfg.scopes ≠ [] →
      lookupParam (buildAuthorizationUrl cfg st) "scope" =
        some (String.intercalate " " cfg.scopes)) ∧
    (cfg.scopes = [] → lookupParam (buildAuthorizationUrl cfg st) "scope" = none) ∧
    (cfg.pkce ≠ some false →
      lookupParam (buildAuthorizationUrl cfg st) "code_challenge" =
        some st.pkce.codeChallenge ∧
      lookupParam (buildAuthorizationUrl cfg st) "code_challenge_method" = some "S256") ∧
    (cfg.pkce = some false →
      lookupParam (buildAuthorizationUrl cfg st) "code_challenge" = none ∧
      lookupParam (buildAuthorizationUrl cfg st) "code_challenge_method" = none) := by
  unfold buildAuthorizationUrl
  by_cases hp : cfg.pkce = some false <;> rcases hsc : cfg.scopes with _ | ⟨s0, srest⟩ <;>
    simp [hp, pkceToQueryParams, hmethod, lookupParam_setParam_self,
      lookupParam_setParam_ne, hscope, hch, hchm]

/-- C6 witness: the amended statement evaluated on a clean authorization
endpoint with one scope and PKCE left enabled. -/
theorem C6_buildAuthorizationUrl_params_witness :
    lookupParam (buildAuthorizationUrl
      ⟨"c1", none, "https://auth/authorize", "https://auth/token", ["read"], none, none⟩
      ⟨"xyzstate", ⟨"ver", "chall", "S256"⟩, "https://app/cb", 0⟩) "code_challenge" =
      some "chall" :=
  ((C6_buildAuthorizationUrl_params
    ⟨"c1", none, "https://auth/authorize", "https://auth/token", ["read"], none, none⟩
    ⟨"xyzstate", ⟨"ver", "chall", "S256"⟩, "https://app/cb", 0⟩
    rfl rfl rfl rfl).2.2.2.2.2.2.1 (by decide)).1

/-- C3 counterexample: a payload that carries an error field whose value is
the empty string. The claim says any payload carrying an error field fails
with that code and description, but the source tests the field with JS
truthiness, so the empty-string error is skipped and parsing succeeds. -/
theorem C3_parseTokenResponse_counterexample :
    parseTokenResponse 0 (.obj [("error", .str ""), ("access_token", .str "goodtoken")]) =
      .ok ⟨"goodtoken", .str "Bearer", none, none, none⟩ :=
  rfl

/-- C3 (amended): parseTokenResponse fails with the invalid-format error
when the payload is not a truthy object; when it carries a truthy error
field it fails with that code, taking the message from a present non-null
error_description and otherwise from the stringified code; when it does
not carry a non-empty string access_token it fails with the message
Missing access_token in response; and otherwise it succeeds with the
accessToken, a tokenType defaulting to Bearer exactly when token_type is
absent or null, an expiresAt of now plus expires_in times 1000 when
expires_in is a nonzero number and no expiresAt when expires_in is absent
or zero, and the raw refresh_token and scope fields. -/
theorem C3_parseTokenResponse_cases (now : Int) (r : JVal) :
    ((jsTruthy r = false ∨ jsIsObjectType r = false) →
      parseTokenResponse now r = .err (oauthError (.str "Invalid token response format"))) ∧
    (∀ e, jsTruthy r = true → jsIsObjectType r = true → getField r "error" = some e →
      jsTruthy e = true →
      ((∀ d, getField r "error_description" = some d → d ≠ .null →
        parseTokenResponse now r = .err (oauthError d (some e))) ∧
       ((getField r "error_description" = none ∨
          getField r "error_description" = some .null) →
        parseTokenResponse now r = .err (oauthError (.str (jsString e)) (some e))))) ∧
    (jsTruthy r = true → jsIsObjectType r = true →
      jsTruthyOpt (getField r "error") = false →
      (¬ ∃ s, getField r "access_token" = some (.str s) ∧ s ≠ "") →
      parseTokenResponse now r = .err (oauthError (.str "Missing access_token in response"))) ∧
    (∀ s, jsTruthy r = true → jsIsObjectType r = true →
      jsTruthyOpt (getField r "error") = false →
      getField r "access_token" = some (.str s) → s ≠ "" →
      ∃ ts, parseTokenResponse now r = .ok ts ∧
        ts.accessToken = s ∧
        ((getField r "token_type" = none ∨ getField r "token_type" = some .null) →
          ts.tokenType = .str "Bearer") ∧
        (∀ v, getField r "token_type" = some v → v ≠ .null → ts.tokenType = v) ∧
        (∀ n : Int, getField r "expires_in" = some (.num n) → n ≠ 0 →
          ts.expiresAt = some (now + n * 1000)) ∧
        ((getField r "expires_in" = none ∨ getField r "expires_in" = some (.num 0)) →
          ts.expiresAt = none) ∧
        ts.refreshToken = getField r "refresh_token" ∧
        ts.scope = getField r "scope") := by
  refine ⟨fun h => ?_, fun e h1 h2 he htr => ⟨fun d hd hdn => ?_, fun hdesc => ?_⟩,
    fun h1 h2 herr hno => ?_, fun s h1 h2 herr hat hs => ?_⟩
  · rcases h with h | h <;> simp [parseTokenResponse, h]
  · cases d
    case null => exact absurd rfl hdn
    all_goals simp [parseTokenResponse, jsTruthyOpt, h1, h2, he, htr, hd]
  · rcases hdesc with hd | hd <;>
      simp [parseTokenResponse, jsTruthyOpt, h1, h2, he, htr, hd]
  · rcases hat2 : getField r "access_token" with _ | v
    · simp [parseTokenResponse, h1, h2, herr, hat2]
    · cases v
      case str s2 =>
        have hs2 : s2 = "" := by
          by_contra hx
          exact hno ⟨s2, hat2, hx⟩
        subst hs2
        simp [parseTokenResponse, h1, h2, herr, hat2]
      all_goals simp [parseTokenResponse, h1, h2, herr, hat2]
  · refine ⟨⟨s,
      match getField r "token_type" with
      | none => .str "Bearer"
      | some .null => .str "Bearer"
      | some v => v,
      if jsTruthyOpt (getField r "expires_in") then
        some (now + jsToInt ((getField r "expires_in").getD .null) * 1000)
      else none,
      getField r "refresh_token", getField r "scope"⟩,
      ?_, rfl, fun htt => ?_, fun v htt hvn => ?_, fun n hei hnz => ?_,
      fun hei => ?_, rfl, rfl⟩
    · simp [parseTokenResponse, h1, h2, herr, hat, hs]
    · rcases htt with h | h <;> simp [h]
    · cases v
      case null => exact absurd rfl hvn
      all_goals simp [htt]
    · simp [hei, jsTruthyOpt, jsTruthy, jsToInt, hnz]
    · rcases hei with h | h <;> simp [h, jsTruthyOpt, jsTruthy]

/-- C3 witness: the amended success case at the payload from the spec
example, giving an expiry of now plus 3600000. -/
theorem C3_parseTokenResponse_cases_witness :
    ∃ ts, parseTokenResponse 5
        (.obj [("access_token", .str "a"), ("expires_in", .num 3600)]) = .ok ts ∧
      ts.accessToken = "a" ∧ ts.expiresAt = some 3600005 :=
  have h := (C3_parseTokenResponse_cases 5
    (.obj [("access_token", .str "a"), ("expires_in", .num 3600)])).2.2.2 "a"
    rfl rfl rfl rfl (by decide)
  ⟨h.choose, h.choose_spec.1, h.choose_spec.2.1,
    h.choose_spec.2.2.2.2.1 3600 rfl (by decide)⟩

/-- The base64url alphabet: the base64 alphabet with minus and underscore
in place of plus and slash. -/
def base64UrlChars : List Char :=
  "ABCDEFGHIJKLMNOPQRSTUVWXYZabcdefghijklmnopqrstuvwxyz0123456789-_".toList

/-- Every six-bit index lands inside the base64 alphabet (the out-of-range
default of the table lookup is itself the letter A). -/
theorem base64Char_mem (n : Nat) : base64Char n ∈ base64Chars := by
  unfold base64Char
  rcases hg : base64Chars[n]? with _ | c
  · simp [List.getD, hg]
    decide
  · simp [List.getD, hg]
    exact List.getElem?_mem hg

/-- Applying both replacements to any base64 character yields a base64url
character and never an equals sign. -/
theorem slashfix_plusfix_spec (c : Char) (h : c ∈ base64Chars) :
    (base64UrlChars.contains (slashfix (plusfix c)) && (slashfix (plusfix c) != '=')) = true := by
  have hall : base64Chars.all (fun c =>
      base64UrlChars.contains (slashfix (plusfix c)) && (slashfix (plusfix c) != '=')) = true := by
    decide
  exact List.all_eq_true.mp hall c h

/-- The replaced base64 character of any index differs from the padding
equals sign. -/
theorem slashfix_plusfix_ne (n : Nat) :
    (slashfix (plusfix (base64Char n)) != '=') = true := by
  have h := slashfix_plusfix_spec (base64Char n) (base64Char_mem n)
  rw [Bool.and_eq_true] at h
  exact h.2

/-- The replaced base64 character of any index is a base64url character. -/
theorem slashfix_plusfix_mem (n : Nat) :
    slashfix (plusfix (base64Char n)) ∈ base64UrlChars := by
  have h := slashfix_plusfix_spec (base64Char n) (base64Char_mem n)
  rw [Bool.and_eq_true] at h
  simpa using h.1

/-- Induction over lists in steps of three, matching the recursion of the
base64 encoder. -/
theorem list3Induction {α : Type} {motive : List α → Prop} (h0 : motive [])
    (h1 : ∀ a, motive [a]) (h2 : ∀ a b, motive [a, b])
    (h3 : ∀ a b c rest, motive rest → motive (a :: b :: c :: rest)) :
    ∀ bs, motive bs
  | [] => h0
  | [a] => h1 a
  | [a, b] => h2 a b
  | a :: b :: c :: rest => h3 a b c rest (list3Induction h0 h1 h2 h3 rest)

/-- Length and alphabet of the base64url encoding: a byte list of length n
encodes to n / 3 * 4 characters plus two or three for a trailing partial
group, all drawn from the base64url alphabet. -/
theorem base64UrlEncode_spec : ∀ bs : List Nat,
    (base64UrlEncode bs).data.length =
      bs.length / 3 * 4 + (if bs.length % 3 = 0 then 0 else bs.length % 3 + 1) ∧
    ∀ c ∈ (base64UrlEncode bs).data, c ∈ base64UrlChars := by
  have heq : slashfix (plusfix '=') = '=' := rfl
  refine list3Induction ⟨by simp [base64UrlEncode, base64Encode], by
    simp [base64UrlEncode, base64Encode]⟩ (fun a => ?_) (fun a b => ?_)
    (fun a b c0 rest ih => ?_)
  · have hred : (base64UrlEncode [a]).data =
        [slashfix (plusfix (base64Char (a / 4))), slashfix (plusfix (base64Char (a % 4 * 16)))] := by
      simp [base64UrlEncode, base64Encode, slashfix_plusfix_ne, heq]
    refine ⟨by simp [hred], fun c hc => ?_⟩
    rw [hred] at hc
    simp only [List.mem_cons, List.not_mem_nil, or_false] at hc
    rcases hc with rfl | rfl <;> exact slashfix_plusfix_mem _
  · have hred : (base64UrlEncode [a, b]).data =
        [slashfix (plusfix (base64Char (a / 4))),
         slashfix (plusfix (base64Char (a % 4 * 16 + b / 16))),
         slashfix (plusfix (base64Char (b % 16 * 4)))] := by
      simp [base64UrlEncode, base64Encode, slashfix_plusfix_ne, heq]
    refine ⟨by simp [hred], fun c hc => ?_⟩
    rw [hred] at hc
    simp only [List.mem_cons, List.not_mem_nil, or_false] at hc
    rcases hc with rfl | rfl | rfl <;> exact slashfix_plusfix_mem _
  · have hred : (base64UrlEncode (a :: b :: c0 :: rest)).data =
        slashfix (plusfix (base64Char (a / 4))) ::
        slashfix (plusfix (base64Char (a % 4 * 16 + b / 16))) ::
        slashfix (plusfix (base64Char (b % 16 * 4 + c0 / 64))) ::
        slashfix (plusfix (base64Char (c0 % 64))) :: (base64UrlEncode rest).data := by
      simp [base64UrlEncode, base64Encode, slashfix_plusfix_ne]
    refine ⟨?_, fun c hc => ?_⟩
    · rw [hred]
      simp only [List.length_cons, ih.1]
      split_ifs <;> omega
    · rw [hred] at hc
      simp only [List.mem_cons] at hc
      rcases hc with rfl | rfl | rfl | rfl | hc
      · exact slashfix_plusfix_mem _
      · exact slashfix_plusfix_mem _
      · exact slashfix_plusfix_mem _
      · exact slashfix_plusfix_mem _
      · exact ih.2 c hc

/-- A SHA-256 digest always consists of thirty-two bytes. -/
theorem sha256_length (m : List Nat) : (sha256 m).length = 32 := by
  simp [sha256, digestBytes, wordBytes]

/-- C8: computeCodeChallenge is a pure function and equal inputs give equal
outputs; its output always has exactly forty-three characters, and every
character is drawn from the base64url alphabet — in particular it is never
plus, slash or equals. -/
theorem C8_computeCodeChallenge (s : String) :
    (computeCodeChallenge s).length = 43 ∧
    (∀ c ∈ (computeCodeChallenge s).data,
      c ∈ base64UrlChars ∧ c ≠ '+' ∧ c ≠ '/' ∧ c ≠ '=') ∧
    (∀ t, s = t → computeCodeChallenge s = computeCodeChallenge t) := by
  have h := base64UrlEncode_spec (sha256 (utf8Bytes s))
  have hlen := sha256_length (utf8Bytes s)
  refine ⟨?_, fun c hc => ?_, fun t ht => ht ▸ rfl⟩
  · have hL : (computeCodeChallenge s).length =
        (base64UrlEncode (sha256 (utf8Bytes s))).data.length := rfl
    rw [hL, h.1, hlen]
    decide
  · have hm := h.2 c hc
    exact ⟨hm, fun he => absurd (he ▸ hm) (by decide),
      fun he => absurd (he ▸ hm) (by decide),
      fun he => absurd (he ▸ hm) (by decide)⟩

/-- C8 witness: the challenge of the string abc has length forty-three,
and determinism instantiated at that input. -/
theorem C8_computeCodeChallenge_witness :
    (computeCodeChallenge "abc").length = 43 ∧
    computeCodeChallenge "abc" = computeCodeChallenge "abc" :=
  ⟨(C8_computeCodeChallenge "abc").1, (C8_computeCodeChallenge "abc").2.2 "abc" rfl⟩

end Contex
